import Mathlib

/-!
Verification of the crop-rectangle engine of ImageCropper (src/main.rs).

The program's `f32` arithmetic is modelled by exact rationals (ℚ).
Euclidean-distance comparisons `pos.distance(q) < tol` (with `tol > 0` and
distances nonnegative) are embedded as squared-distance comparisons
`distSq pos q < tol * tol`, which is equivalent and avoids square roots.
`as u32` casts of nonnegative floats are truncation, embedded as
`Int.toNat ∘ Int.floor`.
-/

namespace Cropper

/-- Model of egui::Pos2 (a 2D point with rational coordinates). -/
structure Pos2 where
  x : ℚ
  y : ℚ
deriving DecidableEq

/-- Model of egui::Vec2 (a 2D vector with rational coordinates). -/
structure Vec2 where
  x : ℚ
  y : ℚ
deriving DecidableEq

/-- Model of egui::Rect: an axis-aligned rectangle given by two corners. -/
structure Rect where
  min : Pos2
  max : Pos2
deriving DecidableEq

/-- egui Rect::width. -/
def Rect.width (r : Rect) : ℚ := r.max.x - r.min.x

/-- egui Rect::height. -/
def Rect.height (r : Rect) : ℚ := r.max.y - r.min.y

/-- egui Rect::center. -/
def Rect.center (r : Rect) : Pos2 :=
  ⟨(r.min.x + r.max.x) / 2, (r.min.y + r.max.y) / 2⟩

/-- egui Rect::translate. -/
def Rect.translate (r : Rect) (d : Vec2) : Rect :=
  ⟨⟨r.min.x + d.x, r.min.y + d.y⟩, ⟨r.max.x + d.x, r.max.y + d.y⟩⟩

/-- egui Rect::from_center_size. -/
def Rect.from_center_size (c : Pos2) (size : Vec2) : Rect :=
  ⟨⟨c.x - size.x / 2, c.y - size.y / 2⟩, ⟨c.x + size.x / 2, c.y + size.y / 2⟩⟩

/-- egui Rect::from_min_max. -/
def Rect.from_min_max (mn mx : Pos2) : Rect := ⟨mn, mx⟩

/-- egui Rect::contains (both comparisons are inclusive in egui). -/
def Rect.contains (r : Rect) (p : Pos2) : Prop :=
  r.min.x ≤ p.x ∧ p.x ≤ r.max.x ∧ r.min.y ≤ p.y ∧ p.y ≤ r.max.y

instance (r : Rect) (p : Pos2) : Decidable (r.contains p) := by
  unfold Rect.contains; infer_instance

/-- Squared Euclidean distance; `pos.distance q < t` (t > 0) is embedded
as `distSq pos q < t * t`. -/
def distSq (p q : Pos2) : ℚ := (p.x - q.x) * (p.x - q.x) + (p.y - q.y) * (p.y - q.y)

/-- egui Pos2::clamp, componentwise. -/
def Pos2.clamp (p lo hi : Pos2) : Pos2 :=
  ⟨min (max p.x lo.x) hi.x, min (max p.y lo.y) hi.y⟩

/-- main.rs 6-17: the nine drag handles. -/
inductive ResizeHandle where
  | TopLeft
  | TopRight
  | BottomLeft
  | BottomRight
  | Top
  | Bottom
  | Left
  | Right
  | Center
deriving DecidableEq

/-- main.rs 19-35: aspect-ratio selection modes. -/
inductive AspectRatioMode where
  | Free
  | Original
  | Square
  | R3_2
  | R4_3
  | R16_9
  | R16_10
  | R2_3
  | R3_4
  | R9_16
  | R10_16
  | Custom
deriving DecidableEq

/-- main.rs 44-56: AspectRatioMode::counterpart. -/
def AspectRatioMode.counterpart : AspectRatioMode → AspectRatioMode
  | .R3_2 => .R2_3
  | .R4_3 => .R3_4
  | .R16_9 => .R9_16
  | .R16_10 => .R10_16
  | .R2_3 => .R3_2
  | .R3_4 => .R4_3
  | .R9_16 => .R16_9
  | .R10_16 => .R16_10
  | m => m

/-- A decoded image; only its pixel dimensions matter to the geometry. -/
structure Image where
  width : ℕ
  height : ℕ
deriving DecidableEq

/-- main.rs 59-69: the application state.  The texture handle carries no
geometric information, so it is modelled by its presence (`Option Unit`). -/
structure ImageCropper where
  image : Option Image
  texture : Option Unit
  crop_rect : Option Rect
  selected_handle : Option ResizeHandle
  aspect_ratio_mode : AspectRatioMode
  custom_w : ℕ
  custom_h : ℕ
  is_portrait : Bool

/-- main.rs 100-113 and 477-492: the target pixel-space ratio for a mode
(`None` for Free); duplicated verbatim at both places in the source. -/
def target_ratio (mode : AspectRatioMode) (imgW imgH cw ch : ℚ) : Option ℚ :=
  match mode with
  | .Free => none
  | .Original => some (imgW / imgH)
  | .Square => some 1
  | .R3_2 => some (3 / 2)
  | .R4_3 => some (4 / 3)
  | .R16_9 => some (16 / 9)
  | .R16_10 => some (16 / 10)
  | .R2_3 => some (2 / 3)
  | .R3_4 => some (3 / 4)
  | .R9_16 => some (9 / 16)
  | .R10_16 => some (10 / 16)
  | .Custom => some (cw / ch)

/-- main.rs 125-129: initial width/height choice preserving the larger
current dimension. -/
def fitInitial (max_dim norm_aspect : ℚ) : ℚ × ℚ :=
  if 1 ≤ norm_aspect then (max_dim, max_dim / norm_aspect)
  else (max_dim * norm_aspect, max_dim)

/-- main.rs 125-139: initial dims followed by the two fit-to-bounds steps. -/
def fitDims (max_dim norm_aspect : ℚ) : ℚ × ℚ :=
  let wh := fitInitial max_dim norm_aspect
  let wh := if 1 < wh.1 then ((1 : ℚ), 1 / norm_aspect) else wh
  let wh := if 1 < wh.2 then (1 * norm_aspect, (1 : ℚ)) else wh
  wh

/-- main.rs 144-155: translate the rectangle back inside [0,1]² when it
overflows on one side (four sequential conditional translations). -/
def translateBack (r : Rect) : Rect :=
  let r := if r.min.x < 0 then r.translate ⟨-r.min.x, 0⟩ else r
  let r := if r.min.y < 0 then r.translate ⟨0, -r.min.y⟩ else r
  let r := if 1 < r.max.x then r.translate ⟨1 - r.max.x, 0⟩ else r
  let r := if 1 < r.max.y then r.translate ⟨0, 1 - r.max.y⟩ else r
  r

/-- main.rs 157-163: hard clamp of both corners into [0,1]². -/
def hardClamp (r : Rect) : Rect :=
  ⟨Pos2.clamp r.min ⟨0, 0⟩ ⟨1, 1⟩, Pos2.clamp r.max ⟨0, 0⟩ ⟨1, 1⟩⟩

/-- main.rs 97-166: apply_aspect_ratio. -/
def apply_aspect_ratio (s : ImageCropper) : ImageCropper :=
  match s.image, s.crop_rect with
  | some image, some crop_rect =>
    match target_ratio s.aspect_ratio_mode image.width image.height
        s.custom_w s.custom_h with
    | none => s
    | some ratio =>
      let norm_aspect := ratio * ((image.height : ℚ) / (image.width : ℚ))
      let wh := fitDims (max crop_rect.width crop_rect.height) norm_aspect
      let r1 := Rect.from_center_size crop_rect.center ⟨wh.1, wh.2⟩
      { s with crop_rect := some (hardClamp (translateBack r1)) }
  | _, _ => s

/-- main.rs 168-205: hit_test (distances embedded as squared distances). -/
def hit_test (pos : Pos2) (rect : Rect) : Option ResizeHandle :=
  let tolerance : ℚ := 10
  let mn := rect.min
  let mx := rect.max
  if distSq pos mn < tolerance * tolerance then some .TopLeft
  else if distSq pos ⟨mx.x, mn.y⟩ < tolerance * tolerance then some .TopRight
  else if distSq pos ⟨mn.x, mx.y⟩ < tolerance * tolerance then some .BottomLeft
  else if distSq pos mx < tolerance * tolerance then some .BottomRight
  else if |pos.x - mn.x| < tolerance ∧ mn.y < pos.y ∧ pos.y < mx.y then some .Left
  else if |pos.x - mx.x| < tolerance ∧ mn.y < pos.y ∧ pos.y < mx.y then some .Right
  else if |pos.y - mn.y| < tolerance ∧ mn.x < pos.x ∧ pos.x < mx.x then some .Top
  else if |pos.y - mx.y| < tolerance ∧ mn.x < pos.x ∧ pos.x < mx.x then some .Bottom
  else if rect.contains pos then some .Center
  else none

/-- main.rs 508-522 (and identically 648-662): the Center handle's
component-wise delta shrinking ("safe panning"). -/
def boundedTranslateDelta (r : Rect) (d : Vec2) : Vec2 :=
  let dx := if r.min.x + d.x < 0 then -r.min.x else d.x
  let dx := if 1 < r.max.x + dx then 1 - r.max.x else dx
  let dy := if r.min.y + d.y < 0 then -r.min.y else d.y
  let dy := if 1 < r.max.y + dy then 1 - r.max.y else dy
  ⟨dx, dy⟩

/-- main.rs 508-524 / 648-664: Center handle translation. -/
def centerMove (r : Rect) (d : Vec2) : Rect :=
  r.translate (boundedTranslateDelta r d)

/-- main.rs 532-544: anchor (fixed corner) and moving corner per handle. -/
def cornerAnchor (handle : ResizeHandle) (r : Rect) : Pos2 × Pos2 :=
  match handle with
  | .TopLeft => (r.max, r.min)
  | .TopRight => (⟨r.min.x, r.max.y⟩, ⟨r.max.x, r.min.y⟩)
  | .BottomLeft => (⟨r.max.x, r.min.y⟩, ⟨r.min.x, r.max.y⟩)
  | .BottomRight => (r.min, r.max)
  | _ => (⟨0, 0⟩, ⟨0, 0⟩)

/-- main.rs 546-572: the projection coefficient λ = (P·U)/(U·U) with
U = (ratio, 1), P the screen-space absolute anchor-to-corner vector after
applying the drag delta to the moving corner. -/
def cornerLambda (handle : ResizeHandle) (r : Rect) (delta : Vec2)
    (ratio : ℚ) (display : Vec2) : ℚ :=
  let ac := cornerAnchor handle r
  let anchor := ac.1
  let corner : Pos2 := ⟨ac.2.x + delta.x, ac.2.y + delta.y⟩
  let raw_w_norm := |corner.x - anchor.x|
  let raw_h_norm := |corner.y - anchor.y|
  let p : Vec2 := ⟨raw_w_norm * display.x, raw_h_norm * display.y⟩
  (p.x * ratio + p.y * 1) / (ratio * ratio + 1 * 1)

/-- main.rs 573-577: constrained dims U·λ converted back to normalized
space (U = (ratio, 1), so the components are ratio·λ and λ). -/
def cornerFinalDim (handle : ResizeHandle) (r : Rect) (delta : Vec2)
    (ratio : ℚ) (display : Vec2) : Vec2 :=
  let lam := cornerLambda handle r delta ratio display
  ⟨ratio * lam / display.x, 1 * lam / display.y⟩

/-- main.rs 527-598: aspect-locked corner resize (reconstructed from the
fixed anchor outward by the constrained dims). -/
def cornerResize (handle : ResizeHandle) (r : Rect) (delta : Vec2)
    (ratio : ℚ) (display : Vec2) : Rect :=
  let anchor := (cornerAnchor handle r).1
  let final_dim := cornerFinalDim handle r delta ratio display
  match handle with
  | .TopLeft =>
      Rect.from_min_max ⟨anchor.x - final_dim.x, anchor.y - final_dim.y⟩ anchor
  | .TopRight =>
      Rect.from_min_max ⟨anchor.x, anchor.y - final_dim.y⟩
        ⟨anchor.x + final_dim.x, anchor.y⟩
  | .BottomLeft =>
      Rect.from_min_max ⟨anchor.x - final_dim.x, anchor.y⟩
        ⟨anchor.x, anchor.y + final_dim.y⟩
  | .BottomRight =>
      Rect.from_min_max anchor ⟨anchor.x + final_dim.x, anchor.y + final_dim.y⟩
  | _ => Rect.from_min_max ⟨0, 0⟩ ⟨0, 0⟩

/-- main.rs 602-622: aspect-locked Left/Right edge resize (drive width,
derive height, centered on the prior vertical center). -/
def sideResizeLR (handle : ResizeHandle) (r : Rect) (d : Vec2)
    (norm_aspect : ℚ) : Rect :=
  let rw : Rect × ℚ :=
    match handle with
    | .Left => ({ r with min.x := r.min.x + d.x }, r.width - d.x)
    | .Right => ({ r with max.x := r.max.x + d.x }, r.width + d.x)
    | _ => (r, r.width)
  let r := rw.1
  let new_w := rw.2
  let new_h := new_w / norm_aspect
  let old_center_y := r.center.y
  { r with min.y := old_center_y - new_h * (1 / 2),
           max.y := old_center_y + new_h * (1 / 2) }

/-- main.rs 623-643: aspect-locked Top/Bottom edge resize (drive height,
derive width, centered on the prior horizontal center). -/
def sideResizeTB (handle : ResizeHandle) (r : Rect) (d : Vec2)
    (norm_aspect : ℚ) : Rect :=
  let rh : Rect × ℚ :=
    match handle with
    | .Top => ({ r with min.y := r.min.y + d.y }, r.height - d.y)
    | .Bottom => ({ r with max.y := r.max.y + d.y }, r.height + d.y)
    | _ => (r, r.height)
  let r := rh.1
  let new_h := rh.2
  let new_w := new_h * norm_aspect
  let old_center_x := r.center.x
  { r with min.x := old_center_x - new_w * (1 / 2),
           max.x := old_center_x + new_w * (1 / 2) }

/-- main.rs 507-644: constrained (aspect-locked) per-handle resize. -/
def constrainedResize (handle : ResizeHandle) (r : Rect) (d : Vec2)
    (ratio norm_aspect : ℚ) (display : Vec2) : Rect :=
  match handle with
  | .Center => centerMove r d
  | .TopLeft | .TopRight | .BottomLeft | .BottomRight =>
      cornerResize handle r d ratio display
  | .Left | .Right => sideResizeLR handle r d norm_aspect
  | .Top | .Bottom => sideResizeTB handle r d norm_aspect

/-- main.rs 646-692: free (unconstrained) per-handle resize. -/
def freeResize (handle : ResizeHandle) (r : Rect) (d : Vec2) : Rect :=
  match handle with
  | .Center => centerMove r d
  | .TopLeft => { r with min.x := r.min.x + d.x, min.y := r.min.y + d.y }
  | .TopRight => { r with min.y := r.min.y + d.y, max.x := r.max.x + d.x }
  | .BottomLeft => { r with min.x := r.min.x + d.x, max.y := r.max.y + d.y }
  | .BottomRight => { r with max.x := r.max.x + d.x, max.y := r.max.y + d.y }
  | .Top => { r with min.y := r.min.y + d.y }
  | .Bottom => { r with max.y := r.max.y + d.y }
  | .Left => { r with min.x := r.min.x + d.x }
  | .Right => { r with max.x := r.max.x + d.x }

/-- main.rs 695-707: the four post-drag clamping steps (raise min to 0,
cap max at 1, each axis independently). -/
def clamp01 (r : Rect) : Rect :=
  let r := if r.min.x < 0 then { r with min.x := 0 } else r
  let r := if r.min.y < 0 then { r with min.y := 0 } else r
  let r := if 1 < r.max.x then { r with max.x := 1 } else r
  let r := if 1 < r.max.y then { r with max.y := 1 } else r
  r

/-- main.rs 708-714: the per-axis min/max swap repair. -/
def swapRepair (r : Rect) : Rect :=
  let r := if r.max.x < r.min.x then
    ⟨⟨r.max.x, r.min.y⟩, ⟨r.min.x, r.max.y⟩⟩ else r
  let r := if r.max.y < r.min.y then
    ⟨⟨r.min.x, r.max.y⟩, ⟨r.max.x, r.min.y⟩⟩ else r
  r

/-- main.rs 695-714: post-drag clamp into [0,1]² followed by the per-axis
min/max swap ("Clamp and ensure min < max"). -/
def clampAndSwap (r : Rect) : Rect :=
  swapRepair (clamp01 r)

/-- main.rs 471-721: one frame of a drag: resolve the target ratio, apply
the per-handle resize (constrained or free), then clamp and swap.  The
display size is `image_size * scale` (main.rs 429-430). -/
def dragUpdate (handle : ResizeHandle) (r : Rect) (delta : Vec2)
    (mode : AspectRatioMode) (imgW imgH cw ch scale : ℚ) : Rect :=
  let display : Vec2 := ⟨imgW * scale, imgH * scale⟩
  match target_ratio mode imgW imgH cw ch with
  | some ratio =>
      let norm_aspect := ratio * (imgH / imgW)
      clampAndSwap (constrainedResize handle r delta ratio norm_aspect display)
  | none => clampAndSwap (freeResize handle r delta)

/-- main.rs 81-95: load_texture installs the texture and resets the crop
rectangle to the full image. -/
def load_texture (s : ImageCropper) : ImageCropper :=
  match s.image with
  | some _ =>
      { s with texture := some (),
               crop_rect := some (Rect.from_min_max ⟨0, 0⟩ ⟨1, 1⟩) }
  | none => s

/-- main.rs 231-242 and 245-256: both load paths run the same body when a
file decodes (`Ok`): install the image, load the texture, clear the
selected handle.  A decode failure (`Err`, modelled `none`) runs nothing. -/
def handle_load (s : ImageCropper) (decoded : Option Image) : ImageCropper :=
  match decoded with
  | some img =>
      let s1 := { s with image := some img }
      let s2 := load_texture s1
      { s2 with selected_handle := none }
  | none => s

/-- main.rs 396-408: the exported pixel window (x, y, width, height).
`as u32` of the nonnegative clamped floats is truncation (floor). -/
def save_pixel_window (r : Rect) (W H : ℕ) : ℕ × ℕ × ℕ × ℕ :=
  let x := Int.toNat ⌊max (r.min.x * (W : ℚ)) 0⌋
  let y := Int.toNat ⌊max (r.min.y * (H : ℚ)) 0⌋
  let width := Int.toNat ⌊max (r.width * (W : ℚ)) 1⌋
  let height := Int.toNat ⌊max (r.height * (H : ℚ)) 1⌋
  let x := min x (W - 1)
  let y := min y (H - 1)
  let width := min width (W - x)
  let height := min height (H - y)
  (x, y, width, height)

/-- The full rectangle invariant claimed by the spec: both corners in
[0,1]² and min ≤ max on both axes. -/
def rectInvariant (r : Rect) : Prop :=
  0 ≤ r.min.x ∧ r.min.x ≤ r.max.x ∧ r.max.x ≤ 1 ∧
  0 ≤ r.min.y ∧ r.min.y ≤ r.max.y ∧ r.max.y ≤ 1

/-- The ordering part of the rectangle invariant: min ≤ max on both axes. -/
def orderedRect (r : Rect) : Prop :=
  r.min.x ≤ r.max.x ∧ r.min.y ≤ r.max.y

/-- Modelled from the spec (§4.3 / C6): the described hit-test priority:
first the four corners (pointer within distance 10 of the corner point,
checked top-left, top-right, bottom-left, bottom-right), then the four
edges (perpendicular distance below 10 and strictly inside the edge's
span), then Move anywhere inside the rectangle, otherwise no handle. -/
def hitTestSpec (pos : Pos2) (rect : Rect) : Option ResizeHandle :=
  if distSq pos rect.min < 10 * 10 then some .TopLeft
  else if distSq pos ⟨rect.max.x, rect.min.y⟩ < 10 * 10 then some .TopRight
  else if distSq pos ⟨rect.min.x, rect.max.y⟩ < 10 * 10 then some .BottomLeft
  else if distSq pos rect.max < 10 * 10 then some .BottomRight
  else if |pos.x - rect.min.x| < 10 ∧ rect.min.y < pos.y ∧ pos.y < rect.max.y
    then some .Left
  else if |pos.x - rect.max.x| < 10 ∧ rect.min.y < pos.y ∧ pos.y < rect.max.y
    then some .Right
  else if |pos.y - rect.min.y| < 10 ∧ rect.min.x < pos.x ∧ pos.x < rect.max.x
    then some .Top
  else if |pos.y - rect.max.y| < 10 ∧ rect.min.x < pos.x ∧ pos.x < rect.max.x
    then some .Bottom
  else if rect.contains pos then some .Center
  else none

/-!  Helper lemmas shared by several claims. -/

/-- A rectangle is ordered exactly when both its dimensions are
nonnegative. -/
lemma ordered_iff (r : Rect) : orderedRect r ↔ 0 ≤ r.width ∧ 0 ≤ r.height := by
  unfold orderedRect Rect.width Rect.height
  constructor <;> rintro ⟨h1, h2⟩ <;> constructor <;> linarith

/-- The swap repair always restores min ≤ max on both axes. -/
lemma swapRepair_ordered (r : Rect) : orderedRect (swapRepair r) := by
  simp only [swapRepair]
  split_ifs <;> simp_all [orderedRect] <;> (try constructor) <;> linarith

/-- The post-drag clamp-and-swap always restores min ≤ max on both axes. -/
lemma clampAndSwap_ordered (r : Rect) : orderedRect (clampAndSwap r) :=
  swapRepair_ordered (clamp01 r)

/-- On a rectangle already satisfying the full invariant, the post-drag
clamp-and-swap is the identity. -/
lemma clampAndSwap_id (r : Rect) (h : rectInvariant r) : clampAndSwap r = r := by
  obtain ⟨h1, h2, h3, h4, h5, h6⟩ := h
  have hc : clamp01 r = r := by
    simp only [clamp01]
    rw [if_neg (not_lt.mpr h1), if_neg (not_lt.mpr h4), if_neg (not_lt.mpr h3),
      if_neg (not_lt.mpr h6)]
  have hs : swapRepair r = r := by
    simp only [swapRepair]
    rw [if_neg (not_lt.mpr h2), if_neg (not_lt.mpr h5)]
  rw [clampAndSwap, hc, hs]

/-- Rect::from_center_size has the prescribed width. -/
lemma from_center_size_width (c : Pos2) (sz : Vec2) :
    (Rect.from_center_size c sz).width = sz.x := by
  unfold Rect.from_center_size Rect.width
  ring

/-- Rect::from_center_size has the prescribed height. -/
lemma from_center_size_height (c : Pos2) (sz : Vec2) :
    (Rect.from_center_size c sz).height = sz.y := by
  unfold Rect.from_center_size Rect.height
  ring

/-- Rect::from_center_size is centered at the prescribed center. -/
lemma from_center_size_center (c : Pos2) (sz : Vec2) :
    (Rect.from_center_size c sz).center = c := by
  obtain ⟨cx, cy⟩ := c
  simp only [Rect.from_center_size, Rect.center, Pos2.mk.injEq]
  constructor <;> ring

/-- translateBack only translates: the width is unchanged. -/
lemma translateBack_width (r : Rect) : (translateBack r).width = r.width := by
  simp only [translateBack]
  split_ifs <;> simp [Rect.translate, Rect.width] <;> ring

/-- translateBack only translates: the height is unchanged. -/
lemma translateBack_height (r : Rect) : (translateBack r).height = r.height := by
  simp only [translateBack]
  split_ifs <;> simp [Rect.translate, Rect.height] <;> ring

set_option maxHeartbeats 1000000 in
/-- When both dimensions lie in [0,1], translateBack lands the rectangle
fully inside [0,1]². -/
lemma translateBack_invariant (r : Rect)
    (hw0 : 0 ≤ r.width) (hw1 : r.width ≤ 1)
    (hh0 : 0 ≤ r.height) (hh1 : r.height ≤ 1) :
    rectInvariant (translateBack r) := by
  unfold Rect.width at hw0 hw1
  unfold Rect.height at hh0 hh1
  simp only [translateBack, rectInvariant]
  split_ifs <;> simp_all [Rect.translate] <;> (try (repeat' constructor)) <;>
    linarith

/-- On a rectangle already inside [0,1]², the hard clamp is the identity. -/
lemma hardClamp_id (r : Rect) (h : rectInvariant r) : hardClamp r = r := by
  obtain ⟨h1, h2, h3, h4, h5, h6⟩ := h
  unfold hardClamp Pos2.clamp
  dsimp
  rw [max_eq_left h1, max_eq_left h4, max_eq_left (le_trans h1 h2),
    max_eq_left (le_trans h4 h5), min_eq_left (le_trans h2 h3), min_eq_left h3,
    min_eq_left (le_trans h5 h6), min_eq_left h6]

/-- C7: for a rectangle inside [0,1]² and a drag delta of any magnitude,
the Center (Move) handle's bounded translation keeps min.x ≥ 0, min.y ≥ 0,
max.x ≤ 1 and max.y ≤ 1, before any clamping step runs. -/
theorem center_move_bounded (r : Rect) (d : Vec2)
    (h1 : 0 ≤ r.min.x) (h2 : 0 ≤ r.min.y)
    (h3 : r.max.x ≤ 1) (h4 : r.max.y ≤ 1) :
    0 ≤ (centerMove r d).min.x ∧ 0 ≤ (centerMove r d).min.y ∧
    (centerMove r d).max.x ≤ 1 ∧ (centerMove r d).max.y ≤ 1 := by
  simp only [centerMove, boundedTranslateDelta, Rect.translate]
  split_ifs <;>
    exact ⟨by linarith, by linarith, by linarith, by linarith⟩

/-- Witness for C7 at the full-image rectangle and a huge delta. -/
theorem center_move_bounded_witness :
    0 ≤ (centerMove ⟨⟨0, 0⟩, ⟨1, 1⟩⟩ ⟨5, -7⟩).min.x ∧
    0 ≤ (centerMove ⟨⟨0, 0⟩, ⟨1, 1⟩⟩ ⟨5, -7⟩).min.y ∧
    (centerMove ⟨⟨0, 0⟩, ⟨1, 1⟩⟩ ⟨5, -7⟩).max.x ≤ 1 ∧
    (centerMove ⟨⟨0, 0⟩, ⟨1, 1⟩⟩ ⟨5, -7⟩).max.y ≤ 1 :=
  center_move_bounded ⟨⟨0, 0⟩, ⟨1, 1⟩⟩ ⟨5, -7⟩ (by norm_num) (by norm_num)
    (by norm_num) (by norm_num)

/-- C8: counterpart is an involution; each named landscape ratio maps to
its portrait reciprocal and back, and Free, Original, Square and Custom
map to themselves. -/
theorem counterpart_involution :
    (∀ m : AspectRatioMode, m.counterpart.counterpart = m)
    ∧ AspectRatioMode.counterpart .R3_2 = .R2_3
    ∧ AspectRatioMode.counterpart .R2_3 = .R3_2
    ∧ AspectRatioMode.counterpart .R4_3 = .R3_4
    ∧ AspectRatioMode.counterpart .R3_4 = .R4_3
    ∧ AspectRatioMode.counterpart .R16_9 = .R9_16
    ∧ AspectRatioMode.counterpart .R9_16 = .R16_9
    ∧ AspectRatioMode.counterpart .R16_10 = .R10_16
    ∧ AspectRatioMode.counterpart .R10_16 = .R16_10
    ∧ AspectRatioMode.counterpart .Free = .Free
    ∧ AspectRatioMode.counterpart .Original = .Original
    ∧ AspectRatioMode.counterpart .Square = .Square
    ∧ AspectRatioMode.counterpart .Custom = .Custom := by
  refine ⟨fun m => by cases m <;> rfl, ?_, ?_, ?_, ?_, ?_, ?_, ?_, ?_, ?_, ?_,
    ?_, ?_⟩ <;> rfl

/-- C9: when decoding fails on either load path (open dialog or dropped
file), the whole session state — image, texture, crop rectangle, selected
handle and aspect settings — is exactly what it was before. -/
theorem load_failure_state_unchanged (s : ImageCropper) :
    handle_load s none = s := rfl

/-- Witness for C9 at a concrete loaded session. -/
theorem load_failure_state_unchanged_witness :
    handle_load
      ⟨some ⟨2, 3⟩, some (), some ⟨⟨0, 0⟩, ⟨1, 1⟩⟩, none, .Free, 4, 3, false⟩
      none
    = ⟨some ⟨2, 3⟩, some (), some ⟨⟨0, 0⟩, ⟨1, 1⟩⟩, none, .Free, 4, 3, false⟩ :=
  load_failure_state_unchanged
    ⟨some ⟨2, 3⟩, some (), some ⟨⟨0, 0⟩, ⟨1, 1⟩⟩, none, .Free, 4, 3, false⟩

/-- C10: apply_aspect_ratio is the identity when the mode is Free or no
image or no crop rectangle is loaded, and in every case it leaves every
state field other than the crop rectangle unchanged. -/
theorem apply_aspect_ratio_frame (s : ImageCropper) :
    ((s.aspect_ratio_mode = AspectRatioMode.Free ∨ s.image = none ∨
        s.crop_rect = none) → apply_aspect_ratio s = s)
    ∧ (apply_aspect_ratio s).image = s.image
    ∧ (apply_aspect_ratio s).texture = s.texture
    ∧ (apply_aspect_ratio s).selected_handle = s.selected_handle
    ∧ (apply_aspect_ratio s).aspect_ratio_mode = s.aspect_ratio_mode
    ∧ (apply_aspect_ratio s).custom_w = s.custom_w
    ∧ (apply_aspect_ratio s).custom_h = s.custom_h
    ∧ (apply_aspect_ratio s).is_portrait = s.is_portrait := by
  constructor
  · rintro (hm | hm | hm)
    · cases h1 : s.image <;> cases h2 : s.crop_rect <;>
        simp [apply_aspect_ratio, h1, h2, hm, target_ratio]
    · cases h2 : s.crop_rect <;> simp [apply_aspect_ratio, hm, h2]
    · cases h1 : s.image <;> simp [apply_aspect_ratio, hm, h1]
  · cases h1 : s.image <;> cases h2 : s.crop_rect <;>
      simp [apply_aspect_ratio, h1, h2] <;>
      rcases h3 : target_ratio s.aspect_ratio_mode _ _ _ _ <;> simp_all

/-- Witness for C10: a Free-mode state is left unchanged. -/
theorem apply_aspect_ratio_frame_witness :
    apply_aspect_ratio ⟨none, none, none, none, .Free, 4, 3, false⟩
      = ⟨none, none, none, none, .Free, 4, 3, false⟩ :=
  (apply_aspect_ratio_frame ⟨none, none, none, none, .Free, 4, 3, false⟩).1
    (Or.inl rfl)

/-- Every ratio the resolver returns is positive when the image and custom
dimensions are positive. -/
lemma target_ratio_pos (mode : AspectRatioMode) (imgW imgH cw ch ratio : ℚ)
    (hW : 0 < imgW) (hH : 0 < imgH) (hcw : 0 < cw) (hch : 0 < ch)
    (h : target_ratio mode imgW imgH cw ch = some ratio) : 0 < ratio := by
  cases mode <;> simp [target_ratio] at h <;> (try subst h) <;>
    first
    | positivity
    | norm_num

/-- The hard clamp of an ordered rectangle satisfies the full invariant. -/
lemma hardClamp_invariant (r : Rect) (h : orderedRect r) :
    rectInvariant (hardClamp r) := by
  obtain ⟨h1, h2⟩ := h
  unfold hardClamp Pos2.clamp rectInvariant
  dsimp only
  refine ⟨le_min (le_max_right _ _) zero_le_one,
    min_le_min (max_le_max h1 le_rfl) le_rfl, min_le_right _ _,
    le_min (le_max_right _ _) zero_le_one,
    min_le_min (max_le_max h2 le_rfl) le_rfl, min_le_right _ _⟩

/-- Both fitted dimensions are nonnegative for a nonnegative input
dimension and positive normalized aspect. -/
lemma fitDims_nonneg (md na : ℚ) (hmd : 0 ≤ md) (hna : 0 < na) :
    0 ≤ (fitDims md na).1 ∧ 0 ≤ (fitDims md na).2 := by
  have h0 : 0 ≤ (fitInitial md na).1 ∧ 0 ≤ (fitInitial md na).2 := by
    unfold fitInitial
    split_ifs <;> exact ⟨by positivity, by positivity⟩
  obtain ⟨a0, b0⟩ := h0
  simp only [fitDims]
  rcases lt_or_le 1 (fitInitial md na).1 with hx | hx
  · rw [if_pos hx]
    rcases lt_or_le 1 ((1 : ℚ), 1 / na).2 with hy | hy
    · rw [if_pos hy]
      constructor <;> simp <;> positivity
    · rw [if_neg (not_lt.mpr hy)]
      constructor <;> simp <;> positivity
  · rw [if_neg (not_lt.mpr hx)]
    rcases lt_or_le 1 (fitInitial md na).2 with hy | hy
    · rw [if_pos hy]
      constructor <;> simp <;> positivity
    · rw [if_neg (not_lt.mpr hy)]
      exact ⟨a0, b0⟩

/-- C6: hit_test returns the first match in the spec's priority order —
the four corners within distance 10, then the four edges within
perpendicular distance 10 and strictly inside their span, then Move for a
point inside the rectangle, else none — and a none result means the
pointer is outside the rectangle. -/
theorem hit_test_matches_spec (pos : Pos2) (rect : Rect) :
    hit_test pos rect = hitTestSpec pos rect
    ∧ (hit_test pos rect = none → ¬ rect.contains pos) := by
  constructor
  · rfl
  · intro h hc
    simp only [hit_test] at h
    split_ifs at h <;> simp_all

/-- Witness for C6 at a pointer far outside the rectangle. -/
theorem hit_test_matches_spec_witness :
    hit_test ⟨50, 50⟩ ⟨⟨0, 0⟩, ⟨20, 20⟩⟩
      = hitTestSpec ⟨50, 50⟩ ⟨⟨0, 0⟩, ⟨20, 20⟩⟩
    ∧ ¬ (Rect.mk ⟨0, 0⟩ ⟨20, 20⟩).contains ⟨50, 50⟩ :=
  ⟨(hit_test_matches_spec ⟨50, 50⟩ ⟨⟨0, 0⟩, ⟨20, 20⟩⟩).1,
   (hit_test_matches_spec ⟨50, 50⟩ ⟨⟨0, 0⟩, ⟨20, 20⟩⟩).2
     (by norm_num [hit_test, distSq, Rect.contains])⟩

/-- C2 (amended): every mutation restores the ordering min ≤ max on both
axes; initialization on image load and apply_aspect_ratio (given positive
image and custom dimensions) moreover keep the rectangle inside [0,1]²;
a per-frame drag update guarantees only the ordering, not containment. -/
theorem crop_mutations_ordered :
    (∀ handle r delta mode imgW imgH cw ch scale,
      orderedRect (dragUpdate handle r delta mode imgW imgH cw ch scale))
    ∧ (∀ s img, (handle_load s (some img)).crop_rect
        = some (Rect.from_min_max ⟨0, 0⟩ ⟨1, 1⟩))
    ∧ rectInvariant (Rect.from_min_max ⟨0, 0⟩ ⟨1, 1⟩)
    ∧ (∀ s img r r2, s.image = some img → s.crop_rect = some r →
        0 < img.width → 0 < img.height → 0 < s.custom_w → 0 < s.custom_h →
        rectInvariant r → (apply_aspect_ratio s).crop_rect = some r2 →
        rectInvariant r2) := by
  refine ⟨?_, ?_, ?_, ?_⟩
  · intro handle r delta mode imgW imgH cw ch scale
    cases h : target_ratio mode imgW imgH cw ch <;>
      simp only [dragUpdate, h] <;> exact clampAndSwap_ordered _
  · intro s img
    rfl
  · norm_num [rectInvariant, Rect.from_min_max]
  · intro s img r r2 himg hrect hW hH hcw hch hinv happ
    have hWq : (0 : ℚ) < img.width := by exact_mod_cast hW
    have hHq : (0 : ℚ) < img.height := by exact_mod_cast hH
    have hcwq : (0 : ℚ) < s.custom_w := by exact_mod_cast hcw
    have hchq : (0 : ℚ) < s.custom_h := by exact_mod_cast hch
    obtain ⟨i1, i2, i3, i4, i5, i6⟩ := hinv
    have hw0 : 0 ≤ r.width := by unfold Rect.width; linarith
    have hmd : 0 ≤ max r.width r.height := le_trans hw0 (le_max_left _ _)
    cases h3 : target_ratio s.aspect_ratio_mode img.width img.height
        s.custom_w s.custom_h with
    | none =>
      simp only [apply_aspect_ratio, himg, hrect, h3] at happ
      rw [Option.some.injEq] at happ
      subst happ
      exact ⟨i1, i2, i3, i4, i5, i6⟩
    | some ratio =>
      have hratio : 0 < ratio :=
        target_ratio_pos s.aspect_ratio_mode _ _ _ _ ratio hWq hHq hcwq hchq h3
      have hna : 0 < ratio * ((img.height : ℚ) / (img.width : ℚ)) := by positivity
      simp only [apply_aspect_ratio, himg, hrect, h3, Option.some.injEq] at happ
      subst happ
      apply hardClamp_invariant
      have hdims := fitDims_nonneg (max r.width r.height)
        (ratio * ((img.height : ℚ) / (img.width : ℚ))) hmd hna
      rw [ordered_iff, translateBack_width, translateBack_height,
        from_center_size_width, from_center_size_height]
      exact hdims

/-- C2 counterexample: from the invariant-satisfying rectangle
[0.2,0.2]–[0.8,0.8], a free Left-edge drag with delta (2,0) yields
max.x = 11/5 > 1: the claimed [0,1] containment fails after a drag
mutation, because the clamp runs before the min/max swap. -/
theorem crop_mutation_escapes_bounds :
    rectInvariant ⟨⟨1/5, 1/5⟩, ⟨4/5, 4/5⟩⟩
    ∧ (dragUpdate .Left ⟨⟨1/5, 1/5⟩, ⟨4/5, 4/5⟩⟩ ⟨2, 0⟩ .Free 1 1 4 3 1).max.x
        = 11/5
    ∧ ¬ rectInvariant
        (dragUpdate .Left ⟨⟨1/5, 1/5⟩, ⟨4/5, 4/5⟩⟩ ⟨2, 0⟩ .Free 1 1 4 3 1) := by
  refine ⟨by norm_num [rectInvariant], ?_, ?_⟩ <;>
    norm_num [dragUpdate, target_ratio, freeResize, clampAndSwap, clamp01,
      swapRepair, rectInvariant]

/-- Witness for C2 at a concrete drag and a concrete apply_aspect_ratio
call on a loaded Square-mode session. -/
theorem crop_mutations_ordered_witness :
    orderedRect (dragUpdate .Left ⟨⟨1/5, 1/5⟩, ⟨4/5, 4/5⟩⟩ ⟨2, 0⟩ .Free 1 1 4 3 1)
    ∧ rectInvariant ⟨⟨0, 0⟩, ⟨1, 1⟩⟩ :=
  ⟨crop_mutations_ordered.1 .Left ⟨⟨1/5, 1/5⟩, ⟨4/5, 4/5⟩⟩ ⟨2, 0⟩ .Free 1 1 4 3 1,
   crop_mutations_ordered.2.2.2
     ⟨some ⟨1, 1⟩, some (), some ⟨⟨0, 0⟩, ⟨1, 1⟩⟩, none, .Square, 4, 3, false⟩
     ⟨1, 1⟩ ⟨⟨0, 0⟩, ⟨1, 1⟩⟩ ⟨⟨0, 0⟩, ⟨1, 1⟩⟩ rfl rfl (by decide) (by decide)
     (by decide) (by decide) (by norm_num [rectInvariant])
     (by norm_num [apply_aspect_ratio, target_ratio, fitDims, fitInitial,
       translateBack, hardClamp, Pos2.clamp, Rect.translate,
       Rect.from_center_size, Rect.center, Rect.width, Rect.height])⟩

/-- C4: an aspect-locked Left or Right edge drag yields (before the final
clamp/swap) height = new width / normalized ratio with the vertical center
preserved, and an aspect-locked Top or Bottom edge drag yields
width = new height · normalized ratio with the horizontal center
preserved. -/
theorem side_drag_centered (r : Rect) (d : Vec2) (a : ℚ) (ha : 0 < a) :
    ((sideResizeLR .Left r d a).height = (sideResizeLR .Left r d a).width / a
      ∧ (sideResizeLR .Left r d a).center.y = r.center.y)
    ∧ ((sideResizeLR .Right r d a).height = (sideResizeLR .Right r d a).width / a
      ∧ (sideResizeLR .Right r d a).center.y = r.center.y)
    ∧ ((sideResizeTB .Top r d a).width = (sideResizeTB .Top r d a).height * a
      ∧ (sideResizeTB .Top r d a).center.x = r.center.x)
    ∧ ((sideResizeTB .Bottom r d a).width = (sideResizeTB .Bottom r d a).height * a
      ∧ (sideResizeTB .Bottom r d a).center.x = r.center.x) := by
  refine ⟨⟨?_, ?_⟩, ⟨?_, ?_⟩, ⟨?_, ?_⟩, ⟨?_, ?_⟩⟩ <;>
    simp only [sideResizeLR, sideResizeTB, Rect.width, Rect.height,
      Rect.center] <;>
    ring

/-- Witness for C4 at the unit rectangle, delta (1/10, 0), ratio 2. -/
theorem side_drag_centered_witness :
    ((sideResizeLR .Left ⟨⟨0, 0⟩, ⟨1, 1⟩⟩ ⟨1/10, 0⟩ 2).height
        = (sideResizeLR .Left ⟨⟨0, 0⟩, ⟨1, 1⟩⟩ ⟨1/10, 0⟩ 2).width / 2
      ∧ (sideResizeLR .Left ⟨⟨0, 0⟩, ⟨1, 1⟩⟩ ⟨1/10, 0⟩ 2).center.y
        = (Rect.mk ⟨0, 0⟩ ⟨1, 1⟩).center.y) :=
  (side_drag_centered ⟨⟨0, 0⟩, ⟨1, 1⟩⟩ ⟨1/10, 0⟩ 2 (by norm_num)).1

/-- For a corner handle, the resize reconstructs the rectangle with
exactly the projected dimensions ratio·λ/display.x and λ/display.y. -/
lemma cornerResize_dims (handle : ResizeHandle) (r : Rect) (delta : Vec2)
    (ratio dx dy : ℚ)
    (hh : handle = .TopLeft ∨ handle = .TopRight ∨ handle = .BottomLeft ∨
      handle = .BottomRight) :
    (cornerResize handle r delta ratio ⟨dx, dy⟩).width
      = ratio * cornerLambda handle r delta ratio ⟨dx, dy⟩ / dx
    ∧ (cornerResize handle r delta ratio ⟨dx, dy⟩).height
      = 1 * cornerLambda handle r delta ratio ⟨dx, dy⟩ / dy := by
  rcases hh with h | h | h | h <;> subst h <;>
    constructor <;>
    simp only [cornerResize, cornerFinalDim, cornerAnchor, Rect.width,
      Rect.height, Rect.from_min_max] <;>
    ring

/-- C1: an aspect-locked corner-handle drag whose reconstructed rectangle
lies inside [0,1]² and is non-degenerate produces, after the whole frame
update, exactly that rectangle, and its pixel-space width/height ratio
(normalized width · image width over normalized height · image height)
equals the target pixel ratio exactly. -/
theorem corner_drag_aspect_exact
    (handle : ResizeHandle) (r : Rect) (delta : Vec2) (mode : AspectRatioMode)
    (imgW imgH cw ch scale ratio : ℚ) (r2 : Rect)
    (hmode : target_ratio mode imgW imgH cw ch = some ratio)
    (hW : 0 < imgW) (hH : 0 < imgH) (hs : 0 < scale)
    (hh : handle = .TopLeft ∨ handle = .TopRight ∨ handle = .BottomLeft ∨
      handle = .BottomRight)
    (hr2 : r2 = cornerResize handle r delta ratio ⟨imgW * scale, imgH * scale⟩)
    (hbounds : rectInvariant r2)
    (hwpos : 0 < r2.width) (hhpos : 0 < r2.height) :
    dragUpdate handle r delta mode imgW imgH cw ch scale = r2
    ∧ (r2.width * imgW) / (r2.height * imgH) = ratio := by
  obtain ⟨hwid, hhei⟩ :=
    cornerResize_dims handle r delta ratio (imgW * scale) (imgH * scale) hh
  rw [← hr2] at hwid hhei
  have hdy : (0 : ℚ) < imgH * scale := mul_pos hH hs
  have hdx : (0 : ℚ) < imgW * scale := mul_pos hW hs
  have hL : 0 < cornerLambda handle r delta ratio ⟨imgW * scale, imgH * scale⟩ := by
    rcases (div_pos_iff).mp (by rw [hhei] at hhpos; linarith [hhpos] :
      0 < 1 * cornerLambda handle r delta ratio ⟨imgW * scale, imgH * scale⟩
        / (imgH * scale)) with ⟨h1, _⟩ | ⟨_, h2⟩
    · linarith
    · linarith
  constructor
  · have hred : dragUpdate handle r delta mode imgW imgH cw ch scale
        = clampAndSwap (cornerResize handle r delta ratio
            ⟨imgW * scale, imgH * scale⟩) := by
      rcases hh with h | h | h | h <;> subst h <;>
        simp only [dragUpdate, hmode, constrainedResize]
    rw [hred, ← hr2, clampAndSwap_id r2 hbounds]
  · rw [hwid, hhei]
    have hW' : imgW ≠ 0 := ne_of_gt hW
    have hH' : imgH ≠ 0 := ne_of_gt hH
    have hs' : scale ≠ 0 := ne_of_gt hs
    have hL' : cornerLambda handle r delta ratio ⟨imgW * scale, imgH * scale⟩ ≠ 0 :=
      ne_of_gt hL
    field_simp
    ring

/-- Witness for C1: Square lock on a 1×1 image, BottomRight handle, zero
delta, rectangle [0.2,0.2]–[0.8,0.8]. -/
theorem corner_drag_aspect_exact_witness :
    dragUpdate .BottomRight ⟨⟨1/5, 1/5⟩, ⟨4/5, 4/5⟩⟩ ⟨0, 0⟩ .Square 1 1 4 3 1
      = ⟨⟨1/5, 1/5⟩, ⟨4/5, 4/5⟩⟩
    ∧ ((Rect.mk ⟨1/5, 1/5⟩ ⟨4/5, 4/5⟩).width * 1)
        / ((Rect.mk ⟨1/5, 1/5⟩ ⟨4/5, 4/5⟩).height * 1) = 1 :=
  corner_drag_aspect_exact .BottomRight ⟨⟨1/5, 1/5⟩, ⟨4/5, 4/5⟩⟩ ⟨0, 0⟩ .Square
    1 1 4 3 1 1 ⟨⟨1/5, 1/5⟩, ⟨4/5, 4/5⟩⟩ rfl (by norm_num) (by norm_num)
    (by norm_num) (Or.inr (Or.inr (Or.inr rfl)))
    (by norm_num [cornerResize, cornerFinalDim, cornerLambda, cornerAnchor,
      Rect.from_min_max, Rect.mk.injEq, Pos2.mk.injEq, abs_of_nonneg])
    (by norm_num [rectInvariant]) (by norm_num [Rect.width])
    (by norm_num [Rect.height])

/-- C5: with a non-Free mode resolving to a positive ratio and a fitted
size needing no bound fitting, apply_aspect_ratio keeps the larger prior
dimension as the dominant dimension, derives the other from the
normalized ratio, re-centers on the prior center, translates back inside
[0,1]² (dimensions unchanged), and the final hard clamp is a no-op. -/
theorem apply_aspect_shape
    (s : ImageCropper) (img : Image) (r : Rect) (ratio na : ℚ)
    (wh : ℚ × ℚ) (r1 : Rect)
    (himg : s.image = some img) (hrect : s.crop_rect = some r)
    (hmode : target_ratio s.aspect_ratio_mode img.width img.height
        s.custom_w s.custom_h = some ratio)
    (hW : 0 < (img.width : ℚ)) (hH : 0 < (img.height : ℚ))
    (hratio : 0 < ratio) (hinv : rectInvariant r)
    (hna : na = ratio * ((img.height : ℚ) / (img.width : ℚ)))
    (hwh : wh = fitInitial (max r.width r.height) na)
    (hfit1 : wh.1 ≤ 1) (hfit2 : wh.2 ≤ 1)
    (hr1 : r1 = Rect.from_center_size r.center ⟨wh.1, wh.2⟩) :
    (apply_aspect_ratio s).crop_rect = some (translateBack r1)
    ∧ r1.center = r.center
    ∧ max r1.width r1.height = max r.width r.height
    ∧ r1.width = na * r1.height
    ∧ (translateBack r1).width = r1.width
    ∧ (translateBack r1).height = r1.height
    ∧ hardClamp (translateBack r1) = translateBack r1 := by
  obtain ⟨i1, i2, i3, i4, i5, i6⟩ := hinv
  have hw0 : 0 ≤ r.width := by unfold Rect.width; linarith
  have hh0 : 0 ≤ r.height := by unfold Rect.height; linarith
  have hmd0 : 0 ≤ max r.width r.height := le_trans hw0 (le_max_left _ _)
  have hna0 : 0 < na := by rw [hna]; positivity
  have hr1w : r1.width = wh.1 := by rw [hr1, from_center_size_width]
  have hr1h : r1.height = wh.2 := by rw [hr1, from_center_size_height]
  have hfi : 0 ≤ wh.1 ∧ 0 ≤ wh.2 := by
    rw [hwh]; unfold fitInitial
    split_ifs <;> exact ⟨by positivity, by positivity⟩
  have hinv1 : rectInvariant (translateBack r1) :=
    translateBack_invariant r1 (by rw [hr1w]; exact hfi.1)
      (by rw [hr1w]; exact hfit1) (by rw [hr1h]; exact hfi.2)
      (by rw [hr1h]; exact hfit2)
  have hcl : hardClamp (translateBack r1) = translateBack r1 :=
    hardClamp_id _ hinv1
  have hfd : fitDims (max r.width r.height) na = wh := by
    simp only [fitDims, ← hwh]
    rw [if_neg (not_lt.mpr hfit1), if_neg (not_lt.mpr hfit2)]
  refine ⟨?_, ?_, ?_, ?_, translateBack_width r1, translateBack_height r1, hcl⟩
  · simp only [apply_aspect_ratio, himg, hrect, hmode, ← hna, hfd, ← hr1, hcl]
  · rw [hr1, from_center_size_center]
  · rw [hr1w, hr1h, hwh]
    unfold fitInitial
    rcases le_or_lt 1 na with h | h
    · rw [if_pos h]
      exact max_eq_left (div_le_self hmd0 h)
    · rw [if_neg (not_le.mpr h)]
      exact max_eq_right (mul_le_of_le_one_right hmd0 h.le)
  · rw [hr1w, hr1h, hwh]
    unfold fitInitial
    rcases le_or_lt 1 na with h | h
    · rw [if_pos h]
      have hx : na * (max r.width r.height / na) = max r.width r.height := by
        field_simp
      exact hx.symm
    · rw [if_neg (not_le.mpr h)]
      exact (mul_comm na (max r.width r.height)).symm

/-- Witness for C5: Square mode on a 1×1 image with crop rectangle
[1/4,1/4]–[3/4,3/4]; the rectangle is reproduced unchanged. -/
theorem apply_aspect_shape_witness :
    (apply_aspect_ratio
      ⟨some ⟨1, 1⟩, some (), some ⟨⟨1/4, 1/4⟩, ⟨3/4, 3/4⟩⟩, none, .Square, 4, 3,
        false⟩).crop_rect
    = some (translateBack ⟨⟨1/4, 1/4⟩, ⟨3/4, 3/4⟩⟩) :=
  (apply_aspect_shape
    ⟨some ⟨1, 1⟩, some (), some ⟨⟨1/4, 1/4⟩, ⟨3/4, 3/4⟩⟩, none, .Square, 4, 3,
      false⟩
    ⟨1, 1⟩ ⟨⟨1/4, 1/4⟩, ⟨3/4, 3/4⟩⟩ 1 1 (1/2, 1/2) ⟨⟨1/4, 1/4⟩, ⟨3/4, 3/4⟩⟩
    rfl rfl rfl (by norm_num) (by norm_num) (by norm_num)
    (by norm_num [rectInvariant]) (by norm_num)
    (by norm_num [fitInitial, Rect.width, Rect.height, Prod.ext_iff])
    (by norm_num) (by norm_num)
    (by norm_num [Rect.from_center_size, Rect.center, Rect.mk.injEq,
      Pos2.mk.injEq])).1

/-- C3 (amended): the exported pixel window uses floor (truncation), not
rounding: x = ⌊max(min.x·W, 0)⌋ clamped to W−1, width = ⌊max(width·W, 1)⌋
clamped to W−x (likewise y, height), and consequently x+width ≤ W,
y+height ≤ H, width ≥ 1 and height ≥ 1 whenever W, H ≥ 1. -/
theorem save_window_amended (r : Rect) (W H : ℕ) (hW : 1 ≤ W) (hH : 1 ≤ H)
    (x y w h : ℕ) (hxy : save_pixel_window r W H = (x, y, w, h)) :
    x = min (Int.toNat ⌊max (r.min.x * (W : ℚ)) 0⌋) (W - 1)
    ∧ y = min (Int.toNat ⌊max (r.min.y * (H : ℚ)) 0⌋) (H - 1)
    ∧ w = min (Int.toNat ⌊max (r.width * (W : ℚ)) 1⌋)
        (W - min (Int.toNat ⌊max (r.min.x * (W : ℚ)) 0⌋) (W - 1))
    ∧ h = min (Int.toNat ⌊max (r.height * (H : ℚ)) 1⌋)
        (H - min (Int.toNat ⌊max (r.min.y * (H : ℚ)) 0⌋) (H - 1))
    ∧ x + w ≤ W ∧ y + h ≤ H ∧ 1 ≤ w ∧ 1 ≤ h := by
  simp only [save_pixel_window, Prod.mk.injEq] at hxy
  obtain ⟨hx, hy, hw, hh2⟩ := hxy
  subst hx hy hw hh2
  have hB : 1 ≤ Int.toNat ⌊max (r.width * (W : ℚ)) 1⌋ := by
    have h1 : (1 : ℤ) ≤ ⌊max (r.width * (W : ℚ)) 1⌋ :=
      Int.le_floor.mpr (by push_cast; exact le_max_right _ _)
    omega
  have hD : 1 ≤ Int.toNat ⌊max (r.height * (H : ℚ)) 1⌋ := by
    have h1 : (1 : ℤ) ≤ ⌊max (r.height * (H : ℚ)) 1⌋ :=
      Int.le_floor.mpr (by push_cast; exact le_max_right _ _)
    omega
  refine ⟨rfl, rfl, rfl, rfl, by omega, by omega, by omega, by omega⟩

/-- C3 counterexample: for the rectangle [0,0]–[0.27,0.27] on a 10×10
image the code exports width 2 = ⌊2.7⌋, while the claimed
round(0.27·10) = 3 would survive the claimed clamps (x = 0, 0+3 ≤ 10):
the width is truncated, not rounded. -/
theorem save_window_not_rounded :
    (save_pixel_window ⟨⟨0, 0⟩, ⟨27/100, 27/100⟩⟩ 10 10).2.2.1 = 2
    ∧ round ((Rect.mk ⟨0, 0⟩ ⟨27/100, 27/100⟩).width * (10 : ℚ)) = 3
    ∧ (save_pixel_window ⟨⟨0, 0⟩, ⟨27/100, 27/100⟩⟩ 10 10).1 + 3 ≤ 10 := by
  norm_num [save_pixel_window, Rect.width, Rect.height, round_eq, max_def,
    min_def]
  omega

/-- Witness for C3 at the same rectangle: the exported window (0,0,2,2)
satisfies the clamping bounds. -/
theorem save_window_amended_witness :
    (0 : ℕ) + 2 ≤ 10 ∧ (0 : ℕ) + 2 ≤ 10 ∧ (1 : ℕ) ≤ 2 ∧ (1 : ℕ) ≤ 2 :=
  (save_window_amended ⟨⟨0, 0⟩, ⟨27/100, 27/100⟩⟩ 10 10 (by norm_num)
    (by norm_num) 0 0 2 2
    (by norm_num [save_pixel_window, Rect.width, Rect.height, max_def,
      min_def]; omega)).2.2.2.2

end Cropper
